import Mathlib

/-!
# Scheduler REST client and timed POST client

A shallow embedding of `support/scheduler-client/client.go` and
`support/scheduler/httpclient.go`.

The Go standard library and the domain model are the environment of this code.
They are represented by explicit parameters:

* `Net` : what `http.NewRequest`, `http.Client.Do`, `time.ParseDuration` and the
  header key canonicalisation answer;
* `Codec` : the JSON encoding and decoding of one entity type, and its zero value;
* `PkgConsts` : the two header key constants of package `scheduler` that are
  declared outside the three source files.

Every function returns a `Run`: the list of calls it made into the environment,
in order, and either the returned Go values or a run-time panic.  A Go
`(value, error)` result is a pair whose second component is `none` for `nil`.
A Go pointer that may be `nil` is an `Option`.
-/

namespace Scheduler

/-- Go `error` value, represented by its message. -/
abbrev GoError := String

/-- Go `[]byte`. -/
abbrev Bytes := List Nat

/-- HTTP methods used by the clients (`http.MethodGet`, ...). -/
inductive Method where
  | GET
  | POST
  | PUT
  | DELETE
  deriving DecidableEq, Repr

/-- Header of a request: canonical key and value pairs, oldest first. -/
abbrev Header := List (String × String)

/-- The part of `http.Request` the clients determine; `url` is the parsed URL
the request carries, not the text it was constructed from. -/
structure Request where
  method : Method
  url : String
  body : Option Bytes
  header : Header
  deriving DecidableEq, Repr

/-- The part of `http.Response` the clients look at: the status code and what
reading the body to its end gives. -/
structure Response where
  statusCode : Int
  body : Except GoError Bytes

/-- Calls into the environment, as they appear in a trace: `http.NewRequest`,
`client.Do`, the assignment `resp.Close = true`, `ioutil.ReadAll(resp.Body)`,
`resp.Body.Close()` and `loggingClient.Error`. The logger is a package variable
declared outside the sources at hand; its `Error` is taken to record the message
and return. -/
inductive Event where
  | newRequest (method : Method) (url : String)
  | clientDo (req : Request) (timeout : Int)
  | markClose
  | readAll
  | bodyClose
  | logError (msg : String)
  deriving DecidableEq, Repr

/-- Result of running a Go function: returned values or a panic. -/
inductive Outcome (α : Type) where
  | ret (a : α)
  | panic (msg : String)
  deriving DecidableEq, Repr

/-- A run: the environment calls made, in order, and the outcome. -/
structure Run (α : Type) where
  trace : List Event
  out : Outcome α

/-- Sequencing of runs; a panic stops the run. -/
def Run.bind {α β : Type} (m : Run α) (f : α → Run β) : Run β :=
  match m.out with
  | .ret a => ⟨m.trace ++ (f a).trace, (f a).out⟩
  | .panic msg => ⟨m.trace, .panic msg⟩

instance : Monad Run where
  pure a := ⟨[], .ret a⟩
  bind := Run.bind

/-- One environment call with no result. -/
def emit (e : Event) : Run Unit := ⟨[e], .ret ()⟩

/-- Message of the Go run-time panic on a nil pointer dereference. -/
def nilDeref : String := "runtime error: invalid memory address or nil pointer dereference"

/-- Run-time panic. -/
def goPanic {α : Type} (msg : String) : Run α := ⟨[], .panic msg⟩

/-- The standard library as seen from the clients. -/
structure Net where
  /-- The error of `url.Parse` inside `http.NewRequest`, if any. -/
  urlError : String → Option GoError
  /-- The URL `url.Parse` makes of a text it accepts, in the form the request
  carries it to the transport (`URL.String`); escaping may change the text. -/
  urlParsed : String → String
  /-- The answer of `http.Client.Do` for a request under a client timeout. -/
  roundTrip : Request → Int → Except GoError Response
  /-- Result of `time.ParseDuration`, in nanoseconds. -/
  parseDuration : String → Except GoError Int
  /-- Function `textproto.CanonicalMIMEHeaderKey`. -/
  canonicalKey : String → String

/-- JSON mapping of an entity type of the domain model. -/
structure Codec (T : Type) where
  zero : T
  marshal : T → Except GoError Bytes
  unmarshal : Bytes → Except GoError T

/-- Header key constants of package `scheduler` declared outside the sources at hand. -/
structure PkgConsts where
  ContentTypeKey : String
  ContentLengthKey : String

/-! ## Go built-ins -/

/-- Decimal text of an integer, as `%d` and `strconv.Itoa` print it. -/
def decimal : Int → String
  | .ofNat n => Nat.repr n
  | .negSucc n => "-" ++ Nat.repr (n + 1)

/-- The Unicode replacement character U+FFFD (`utf8.RuneError`). -/
def runeError : Char := Char.ofNat 0xFFFD

/-- Go conversion `string(i)` of an integer: the string holding the single code
point `i`, or U+FFFD when `i` is not a valid code point. -/
def intToString (i : Int) : String :=
  if 0 ≤ i ∧ (i < 0xD800 ∨ (0xDFFF < i ∧ i < 0x110000)) then
    String.singleton (Char.ofNat i.toNat)
  else String.singleton runeError

/-- Function `fmt.Sprintf(UrlPattern, host, port, path)` with `UrlPattern = "http://%s:%d%s"`. -/
def sprintfUrl (host : String) (port : Int) (path : String) : String :=
  "http://" ++ host ++ ":" ++ decimal port ++ path

/-! ## Standard library calls -/

/-- Call `http.NewRequest(method, url, body)`: a nil request together with the
error when the URL does not parse, else a request that carries the parsed URL. -/
def httpNewRequest (net : Net) (method : Method) (url : String) (body : Option Bytes) :
    Run (Option Request × Option GoError) :=
  ⟨[.newRequest method url],
    .ret (match net.urlError url with
      | some e => (none, some e)
      | none => (some ⟨method, net.urlParsed url, body, []⟩, none))⟩

/-- Method `Header.Add`: append a value under the canonical key. -/
def Header.add (net : Net) (h : Header) (key value : String) : Header :=
  h ++ [(net.canonicalKey key, value)]

/-- Method `Header.Set`: replace whatever is stored under the canonical key. -/
def Header.set (net : Net) (h : Header) (key value : String) : Header :=
  h.filter (fun kv => kv.1 ≠ net.canonicalKey key) ++ [(net.canonicalKey key, value)]

/-- Method `Header.Get`: the first value stored under the canonical key. -/
def Header.get (net : Net) (h : Header) (key : String) : Option String :=
  (h.find? (fun kv => kv.1 = net.canonicalKey key)).map Prod.snd

/-- Statement `req.Header.Add(key, value)`; dereferences `req`. -/
def headerAdd (net : Net) (req : Option Request) (key value : String) : Run (Option Request) :=
  match req with
  | none => goPanic nilDeref
  | some r => pure (some { r with header := Header.add net r.header key value })

/-- Statement `req.Header.Set(key, value)`; dereferences `req`. -/
def headerSet (net : Net) (req : Option Request) (key value : String) : Run (Option Request) :=
  match req with
  | none => goPanic nilDeref
  | some r => pure (some { r with header := Header.set net r.header key value })

/-- Call `client.Do(req)` on a client with the given timeout. -/
def clientDo (net : Net) (timeout : Int) (req : Option Request) :
    Run (Option Response × Option GoError) :=
  match req with
  | none => goPanic nilDeref
  | some r =>
    ⟨[.clientDo r timeout],
      .ret (match net.roundTrip r timeout with
        | .ok resp => (some resp, none)
        | .error e => (none, some e))⟩

/-- Call `time.ParseDuration(s)`: the zero duration together with the error on failure. -/
def timeParseDuration (net : Net) (s : String) : Int × Option GoError :=
  match net.parseDuration s with
  | .ok d => (d, none)
  | .error e => (0, some e)

/-! ## `support/scheduler-client/client.go` -/

/-- Constant `ContentType`. -/
def ContentType : String := "Content-Type"

/-- Constant `ContentTypeJsonVal`. -/
def ContentTypeJsonVal : String := "application/json"

/-- Constant `ScheduleApiPath`. -/
def ScheduleApiPath : String := "/api/v1/schedule"

/-- Constant `ScheduleEventApiPath`. -/
def ScheduleEventApiPath : String := "/api/v1/scheduleevent"

/-- Struct to represent the scheduler client. -/
structure SchedulerRestClient where
  SchedulerServiceHost : String
  SchedulerServicePort : Int
  OwningService : String

/-- Function `NewSchedulerRestClient`. -/
def NewSchedulerRestClient (ssh : String) (ssp : Int) (os : String) : SchedulerRestClient :=
  { SchedulerServiceHost := ssh, SchedulerServicePort := ssp, OwningService := os }

/-- Function `sendRequest`: make the request, close the body of a delivered
response, return the error of the call. The client has no timeout set. -/
def sendRequest (net : Net) (req : Option Request) : Run (Option GoError) := do
  let (resp, err) ← clientDo net 0 req
  match err with
  | none =>
    match resp with
    | none => goPanic nilDeref
    | some _ => do
      emit .markClose
      emit .bodyClose
      pure none
  | some e => pure (some e)

/-- Function `sendRequestAndGetResponse`: make the request and read the body. -/
def sendRequestAndGetResponse (net : Net) (req : Option Request) :
    Run (Bytes × Option GoError) := do
  let (resp, err) ← clientDo net 0 req
  match err with
  | some e => pure ([], some e)
  | none =>
    match resp with
    | none => goPanic nilDeref
    | some r => do
      emit .markClose
      emit .readAll
      match r.body with
      | .error e => do
        emit .bodyClose
        pure ([], some e)
      | .ok bodyBytes => do
        emit .bodyClose
        pure (bodyBytes, none)

/-- Function `doGet`. -/
def doGet (net : Net) (url : String) : Run (Bytes × Option GoError) := do
  let (req, err) ← httpNewRequest net .GET url none
  match err with
  | some e => pure ([], some e)
  | none => sendRequestAndGetResponse net req

/-- Function `doPost`: the header is added before the error is looked at. -/
def doPost (net : Net) (url : String) (binaryReqBody : Bytes) : Run (Option GoError) := do
  let (req, err) ← httpNewRequest net .POST url (some binaryReqBody)
  let req ← headerAdd net req ContentType ContentTypeJsonVal
  match err with
  | some e => pure (some e)
  | none => sendRequest net req

/-- Function `doPut`: the header is added before the error is looked at. -/
def doPut (net : Net) (url : String) (binaryReqBody : Bytes) : Run (Option GoError) := do
  let (req, err) ← httpNewRequest net .PUT url (some binaryReqBody)
  let req ← headerAdd net req ContentType ContentTypeJsonVal
  match err with
  | some e => pure (some e)
  | none => sendRequest net req

/-- Function `doDelete`. -/
def doDelete (net : Net) (url : String) : Run (Option GoError) := do
  let (req, err) ← httpNewRequest net .DELETE url none
  match err with
  | some e => pure (some e)
  | none => sendRequest net req

section ResourceClient

variable {S E : Type}

/-- Method `QuerySchedule`. -/
def SchedulerRestClient.QuerySchedule (net : Net) (cs : Codec S) (src : SchedulerRestClient)
    (id : String) : Run (S × Option GoError) := do
  let remoteScheduleUrl :=
    sprintfUrl src.SchedulerServiceHost src.SchedulerServicePort ScheduleApiPath
  let remoteScheduleUrl := remoteScheduleUrl ++ "/" ++ id
  let (jsonBytes, err) ← doGet net remoteScheduleUrl
  match err with
  | some e => pure (cs.zero, some e)
  | none =>
    match cs.unmarshal jsonBytes with
    | .error e => pure (cs.zero, some e)
    | .ok schedule => pure (schedule, none)

/-- Method `QueryScheduleWithName`. -/
def SchedulerRestClient.QueryScheduleWithName (net : Net) (cs : Codec S)
    (src : SchedulerRestClient) (scheduleName : String) : Run (S × Option GoError) := do
  let remoteScheduleUrl :=
    sprintfUrl src.SchedulerServiceHost src.SchedulerServicePort ScheduleApiPath
  let remoteScheduleUrl := remoteScheduleUrl ++ "/name/" ++ scheduleName
  let (jsonBytes, err) ← doGet net remoteScheduleUrl
  match err with
  | some e => pure (cs.zero, some e)
  | none =>
    match cs.unmarshal jsonBytes with
    | .error e => pure (cs.zero, some e)
    | .ok schedule => pure (schedule, none)

/-- Method `AddSchedule`. -/
def SchedulerRestClient.AddSchedule (net : Net) (cs : Codec S) (src : SchedulerRestClient)
    (schedule : S) : Run (Option GoError) :=
  match cs.marshal schedule with
  | .error e => pure (some e)
  | .ok requestBody =>
    let remoteScheduleUrl :=
      sprintfUrl src.SchedulerServiceHost src.SchedulerServicePort ScheduleApiPath
    doPost net remoteScheduleUrl requestBody

/-- Method `UpdateSchedule`. -/
def SchedulerRestClient.UpdateSchedule (net : Net) (cs : Codec S) (src : SchedulerRestClient)
    (schedule : S) : Run (Option GoError) :=
  match cs.marshal schedule with
  | .error e => pure (some e)
  | .ok requestBody =>
    let remoteScheduleUrl :=
      sprintfUrl src.SchedulerServiceHost src.SchedulerServicePort ScheduleApiPath
    doPut net remoteScheduleUrl requestBody

/-- Method `RemoveSchedule`. -/
def SchedulerRestClient.RemoveSchedule (net : Net) (src : SchedulerRestClient)
    (id : String) : Run (Option GoError) :=
  let remoteScheduleUrl :=
    sprintfUrl src.SchedulerServiceHost src.SchedulerServicePort ScheduleApiPath
  let remoteScheduleUrl := remoteScheduleUrl ++ "/" ++ id
  doDelete net remoteScheduleUrl

/-- Method `QueryScheduleEvent`. -/
def SchedulerRestClient.QueryScheduleEvent (net : Net) (ce : Codec E)
    (src : SchedulerRestClient) (id : String) : Run (E × Option GoError) := do
  let remoteScheduleEventUrl :=
    sprintfUrl src.SchedulerServiceHost src.SchedulerServicePort ScheduleEventApiPath
  let remoteScheduleEventUrl := remoteScheduleEventUrl ++ "/" ++ id
  let (jsonBytes, err) ← doGet net remoteScheduleEventUrl
  match err with
  | some e => pure (ce.zero, some e)
  | none =>
    match ce.unmarshal jsonBytes with
    | .error e => pure (ce.zero, some e)
    | .ok scheduleEvent => pure (scheduleEvent, none)

/-- Method `AddScheduleEvent`. -/
def SchedulerRestClient.AddScheduleEvent (net : Net) (ce : Codec E)
    (src : SchedulerRestClient) (scheduleEvent : E) : Run (Option GoError) :=
  match ce.marshal scheduleEvent with
  | .error e => pure (some e)
  | .ok requestBody =>
    let remoteScheduleEventUrl :=
      sprintfUrl src.SchedulerServiceHost src.SchedulerServicePort ScheduleEventApiPath
    doPost net remoteScheduleEventUrl requestBody

/-- Method `UpdateScheduleEvent`. -/
def SchedulerRestClient.UpdateScheduleEvent (net : Net) (ce : Codec E)
    (src : SchedulerRestClient) (scheduleEvent : E) : Run (Option GoError) :=
  match ce.marshal scheduleEvent with
  | .error e => pure (some e)
  | .ok requestBody =>
    let remoteScheduleEventUrl :=
      sprintfUrl src.SchedulerServiceHost src.SchedulerServicePort ScheduleEventApiPath
    doPut net remoteScheduleEventUrl requestBody

/-- Method `RemoveScheduleEvent`. -/
def SchedulerRestClient.RemoveScheduleEvent (net : Net) (src : SchedulerRestClient)
    (id : String) : Run (Option GoError) :=
  let remoteScheduleEventUrl :=
    sprintfUrl src.SchedulerServiceHost src.SchedulerServicePort ScheduleEventApiPath
  let remoteScheduleEventUrl := remoteScheduleEventUrl ++ "/" ++ id
  doDelete net remoteScheduleEventUrl

end ResourceClient

/-! ## `support/scheduler/httpclient.go` and `mock-httpclient.go` -/

/-- Function `makeRequestAndGetResponse`, on a client with the given timeout. -/
def makeRequestAndGetResponse (net : Net) (timeout : Int) (req : Option Request) :
    Run (Bytes × Int × Option GoError) := do
  let (resp, err) ← clientDo net timeout req
  match err with
  | some e => pure ([], 500, some e)
  | none =>
    match resp with
    | none => goPanic nilDeref
    | some r => do
      emit .markClose
      emit .readAll
      match r.body with
      | .error e => do
        emit .bodyClose
        pure ([], 500, some e)
      | .ok bodyBytes => do
        emit .bodyClose
        pure (bodyBytes, r.statusCode, none)

/-- Method `DefaultHttpClient.Post`: both headers are set before the
construction error is looked at, and neither error ends the call. -/
def DefaultHttpClient.Post (k : PkgConsts) (net : Net) (url contentType : String)
    (contentLength : Int) (timeoutStr : String) : Run (Bytes × Int × Option GoError) := do
  let (req, err) ← httpNewRequest net .POST url none
  let req ← headerSet net req k.ContentTypeKey contentType
  let req ← headerSet net req k.ContentLengthKey (intToString contentLength)
  match err with
  | some e => emit (.logError ("create new request occurs error : " ++ e))
  | none => pure ()
  let (timeout, err) := timeParseDuration net timeoutStr
  match err with
  | some e => emit (.logError ("parse timeout duration error : " ++ e))
  | none => pure ()
  makeRequestAndGetResponse net timeout req

/-- Method `MockHttpClient.Post`. -/
def MockHttpClient.Post (_url _contentType : String) (_contentLength : Int)
    (_timeoutStr : String) : Run (Bytes × Int × Option GoError) :=
  pure ([], 0, none)

/-! ## Notions used to state the properties -/

/-- The request `DefaultHttpClient.Post` has built once both headers are set. -/
def postRequest (k : PkgConsts) (net : Net) (url contentType : String) (contentLength : Int) :
    Request :=
  ⟨.POST, net.urlParsed url, none,
    Header.set net (Header.set net [] k.ContentTypeKey contentType)
      k.ContentLengthKey (intToString contentLength)⟩

/-- The request constructions of a trace, in order: method and URL text. -/
def constructions : List Event → List (Method × String)
  | [] => []
  | .newRequest m u :: es => (m, u) :: constructions es
  | _ :: es => constructions es

/-- The transport calls of a trace, in order. -/
def transportCalls : List Event → List (Request × Int)
  | [] => []
  | .clientDo r t :: es => (r, t) :: transportCalls es
  | _ :: es => transportCalls es

/-- A call of one of the nine operations of `SchedulerClient`, with its argument. -/
inductive Op (S E : Type) where
  | QuerySchedule (id : String)
  | QueryScheduleWithName (scheduleName : String)
  | AddSchedule (schedule : S)
  | UpdateSchedule (schedule : S)
  | RemoveSchedule (id : String)
  | QueryScheduleEvent (id : String)
  | AddScheduleEvent (scheduleEvent : E)
  | UpdateScheduleEvent (scheduleEvent : E)
  | RemoveScheduleEvent (id : String)

/-- The environment calls made by an operation of the client. -/
def Op.trace {S E : Type} (net : Net) (cs : Codec S) (ce : Codec E) (src : SchedulerRestClient) :
    Op S E → List Event
  | .QuerySchedule id => (src.QuerySchedule net cs id).trace
  | .QueryScheduleWithName scheduleName => (src.QueryScheduleWithName net cs scheduleName).trace
  | .AddSchedule schedule => (src.AddSchedule net cs schedule).trace
  | .UpdateSchedule schedule => (src.UpdateSchedule net cs schedule).trace
  | .RemoveSchedule id => (src.RemoveSchedule net id).trace
  | .QueryScheduleEvent id => (src.QueryScheduleEvent net ce id).trace
  | .AddScheduleEvent scheduleEvent => (src.AddScheduleEvent net ce scheduleEvent).trace
  | .UpdateScheduleEvent scheduleEvent => (src.UpdateScheduleEvent net ce scheduleEvent).trace
  | .RemoveScheduleEvent id => (src.RemoveScheduleEvent net id).trace

/-- Base address of the table: `http://`, the host, a colon, the port in decimal. -/
def BASE (host : String) (port : Int) : String :=
  "http://" ++ host ++ ":" ++ decimal port

/-- Method column of the table. -/
def Op.tableMethod {S E : Type} : Op S E → Method
  | .QuerySchedule _ => .GET
  | .QueryScheduleWithName _ => .GET
  | .AddSchedule _ => .POST
  | .UpdateSchedule _ => .PUT
  | .RemoveSchedule _ => .DELETE
  | .QueryScheduleEvent _ => .GET
  | .AddScheduleEvent _ => .POST
  | .UpdateScheduleEvent _ => .PUT
  | .RemoveScheduleEvent _ => .DELETE

/-- URL column of the table. -/
def Op.tableUrl {S E : Type} (host : String) (port : Int) : Op S E → String
  | .QuerySchedule id => BASE host port ++ "/api/v1/schedule/" ++ id
  | .QueryScheduleWithName scheduleName => BASE host port ++ "/api/v1/schedule/name/" ++ scheduleName
  | .AddSchedule _ => BASE host port ++ "/api/v1/schedule"
  | .UpdateSchedule _ => BASE host port ++ "/api/v1/schedule"
  | .RemoveSchedule id => BASE host port ++ "/api/v1/schedule/" ++ id
  | .QueryScheduleEvent id => BASE host port ++ "/api/v1/scheduleevent/" ++ id
  | .AddScheduleEvent _ => BASE host port ++ "/api/v1/scheduleevent"
  | .UpdateScheduleEvent _ => BASE host port ++ "/api/v1/scheduleevent"
  | .RemoveScheduleEvent id => BASE host port ++ "/api/v1/scheduleevent/" ++ id

/-- Whether the entity of an Add or Update encodes; an operation on a key has
nothing to encode. -/
def Op.encodes {S E : Type} (cs : Codec S) (ce : Codec E) : Op S E → Bool
  | .AddSchedule schedule => (cs.marshal schedule).toBool
  | .UpdateSchedule schedule => (cs.marshal schedule).toBool
  | .AddScheduleEvent scheduleEvent => (ce.marshal scheduleEvent).toBool
  | .UpdateScheduleEvent scheduleEvent => (ce.marshal scheduleEvent).toBool
  | _ => true

/-- An event hands the given method and URL text to the standard library: a
request construction is for exactly them, a transport call carries a request
with the method and with the URL parsed from the text. -/
def Event.aimsAt (net : Net) (m : Method) (u : String) : Event → Prop
  | .newRequest m1 u1 => m1 = m ∧ u1 = u
  | .clientDo r _ => r.method = m ∧ r.url = net.urlParsed u
  | _ => True

/-- Whether a transport call of the trace was answered with a response. -/
def delivered (net : Net) (t : List Event) : Bool :=
  t.any fun e =>
    match e with
    | .clientDo r timeout => (net.roundTrip r timeout).toBool
    | _ => false

/-- What a query operation makes of the result of `doGet`. -/
def decodeStep {T : Type} (c : Codec T) (r : Bytes × Option GoError) : Run (T × Option GoError) :=
  match r.2 with
  | some e => pure (c.zero, some e)
  | none =>
    match c.unmarshal r.1 with
    | .error e => pure (c.zero, some e)
    | .ok entity => pure (entity, none)

/-- A trace hands the method and the URL over: it starts with the construction
of a request for them and every construction and transport call is for them. -/
def handsOver (net : Net) (m : Method) (u : String) (t : List Event) : Prop :=
  t.head? = some (.newRequest m u) ∧ ∀ e ∈ t, e.aimsAt net m u

/-- The error a caller of `client.Do` sees: nil for a response, else the error of the call. -/
def transportError : Except GoError Response → Option GoError
  | .ok _ => none
  | .error e => some e

/-- A call of an operation of either client. -/
inductive Call (S E : Type) where
  | resource (op : Op S E)
  | timedPost (url contentType : String) (contentLength : Int) (timeoutStr : String)

/-- The environment calls made by a call of either client. -/
def Call.trace {S E : Type} (k : PkgConsts) (net : Net) (cs : Codec S) (ce : Codec E)
    (src : SchedulerRestClient) : Call S E → List Event
  | .resource op => op.trace net cs ce src
  | .timedPost url contentType contentLength timeoutStr =>
    (DefaultHttpClient.Post k net url contentType contentLength timeoutStr).trace

/-- The calls that end in `sendRequestAndGetResponse` or `makeRequestAndGetResponse`:
the three queries and the timed post. The others end in `sendRequest`. -/
def Call.wantsBody {S E : Type} : Call S E → Bool
  | .resource (.QuerySchedule _) => true
  | .resource (.QueryScheduleWithName _) => true
  | .resource (.QueryScheduleEvent _) => true
  | .resource _ => false
  | .timedPost _ _ _ _ => true

/-- The part of a trace from the first close of the body on. -/
def fromClose (t : List Event) : List Event :=
  t.dropWhile (fun e => e ≠ .bodyClose)

/-- The body is read to its end once and closed once, the read before the close. -/
def readsThenCloses (t : List Event) : Prop :=
  t.count .readAll = 1 ∧ t.count .bodyClose = 1 ∧ Event.readAll ∉ fromClose t

/-- The body is closed once; it is read once, before the close, if `reads`, and
not at all otherwise. -/
def closesOnce (reads : Bool) (t : List Event) : Prop :=
  t.count .bodyClose = 1 ∧ (t.count .readAll = if reads then 1 else 0) ∧
    Event.readAll ∉ fromClose t

/-! ## A concrete environment -/

/-- The authority of a URL text: what stands between `http://` and the next slash. -/
def authorityOf (u : String) : List Char :=
  (u.toList.drop 7).takeWhile (fun c => c ≠ '/')

/-- Percent-escaping of the blanks of a text. -/
def escapeBlanks : List Char → List Char
  | [] => []
  | c :: cs => if c = ' ' then '%' :: '2' :: '0' :: escapeBlanks cs else c :: escapeBlanks cs

/-- Sample standard library: a URL whose authority holds a blank does not parse,
a blank elsewhere is escaped by the parse; host `down` refuses the connection;
a path ending in `missing` answers 404, one ending in
`broken` answers 500 with a body that fails while read, one ending in `empty`
answers 200 with no body, anything else answers 200 with the bytes of `ok`. -/
def demoNet : Net where
  urlError u :=
    if ' ' ∈ authorityOf u then some "parse: invalid character in host name" else none
  urlParsed u := String.mk (escapeBlanks u.toList)
  roundTrip r _ :=
    if "http://down:".toList.isPrefixOf r.url.toList then .error "dial tcp: connection refused"
    else if "missing".toList.isSuffixOf r.url.toList then .ok ⟨404, .ok [110, 111]⟩
    else if "broken".toList.isSuffixOf r.url.toList then .ok ⟨500, .error "unexpected EOF"⟩
    else if "empty".toList.isSuffixOf r.url.toList then .ok ⟨200, .ok []⟩
    else .ok ⟨200, .ok [111, 107]⟩
  parseDuration s :=
    if s = "0s" then .ok 0
    else if s = "5s" then .ok 5000000000
    else .error "time: invalid duration"
  canonicalKey s := s

/-- Sample entity mapping: an entity is a list of bytes; the entity `[0]` does
not encode and an empty body does not decode. -/
def demoCodec : Codec (List Nat) where
  zero := []
  marshal s := if s = [0] then .error "json: unsupported value" else .ok s
  unmarshal b := if b = [] then .error "unexpected end of JSON input" else .ok b

/-- Sample header key constants. -/
def demoConsts : PkgConsts := ⟨"Content-Type", "Content-Length"⟩

/-- Sample client configuration. -/
def demoClient : SchedulerRestClient := NewSchedulerRestClient "localhost" 48085 "svc"

/-! ## Properties -/

theorem sendRequest_some (net : Net) (r : Request) :
    sendRequest net (some r) =
      match net.roundTrip r 0 with
      | .ok _ => ⟨[.clientDo r 0, .markClose, .bodyClose], .ret none⟩
      | .error e => ⟨[.clientDo r 0], .ret (some e)⟩ := by
  cases h : net.roundTrip r 0 <;>
    simp [sendRequest, clientDo, bind, Run.bind, pure, emit, h]

theorem sendRequestAndGetResponse_some (net : Net) (r : Request) :
    sendRequestAndGetResponse net (some r) =
      match net.roundTrip r 0 with
      | .error e => ⟨[.clientDo r 0], .ret ([], some e)⟩
      | .ok resp =>
        match resp.body with
        | .error e => ⟨[.clientDo r 0, .markClose, .readAll, .bodyClose], .ret ([], some e)⟩
        | .ok b => ⟨[.clientDo r 0, .markClose, .readAll, .bodyClose], .ret (b, none)⟩ := by
  cases h : net.roundTrip r 0 with
  | error e => simp [sendRequestAndGetResponse, clientDo, bind, Run.bind, pure, emit, h]
  | ok resp =>
    cases hb : resp.body <;>
      simp [sendRequestAndGetResponse, clientDo, bind, Run.bind, pure, emit, h, hb]

theorem makeRequestAndGetResponse_some (net : Net) (timeout : Int) (r : Request) :
    makeRequestAndGetResponse net timeout (some r) =
      match net.roundTrip r timeout with
      | .error e => ⟨[.clientDo r timeout], .ret ([], 500, some e)⟩
      | .ok resp =>
        match resp.body with
        | .error e =>
          ⟨[.clientDo r timeout, .markClose, .readAll, .bodyClose], .ret ([], 500, some e)⟩
        | .ok b =>
          ⟨[.clientDo r timeout, .markClose, .readAll, .bodyClose],
            .ret (b, resp.statusCode, none)⟩ := by
  cases h : net.roundTrip r timeout with
  | error e => simp [makeRequestAndGetResponse, clientDo, bind, Run.bind, pure, emit, h]
  | ok resp =>
    cases hb : resp.body <;>
      simp [makeRequestAndGetResponse, clientDo, bind, Run.bind, pure, emit, h, hb]

theorem doGet_eq (net : Net) (url : String) :
    doGet net url =
      match net.urlError url with
      | some e => ⟨[.newRequest .GET url], .ret ([], some e)⟩
      | none =>
        ⟨.newRequest .GET url ::
            (sendRequestAndGetResponse net (some ⟨.GET, net.urlParsed url, none, []⟩)).trace,
          (sendRequestAndGetResponse net (some ⟨.GET, net.urlParsed url, none, []⟩)).out⟩ := by
  cases h : net.urlError url <;>
    simp [doGet, httpNewRequest, bind, Run.bind, pure, h]

theorem doDelete_eq (net : Net) (url : String) :
    doDelete net url =
      match net.urlError url with
      | some e => ⟨[.newRequest .DELETE url], .ret (some e)⟩
      | none =>
        ⟨.newRequest .DELETE url ::
            (sendRequest net (some ⟨.DELETE, net.urlParsed url, none, []⟩)).trace,
          (sendRequest net (some ⟨.DELETE, net.urlParsed url, none, []⟩)).out⟩ := by
  cases h : net.urlError url <;>
    simp [doDelete, httpNewRequest, bind, Run.bind, pure, h]

theorem doPost_eq (net : Net) (url : String) (b : Bytes) :
    doPost net url b =
      match net.urlError url with
      | some _ => ⟨[.newRequest .POST url], .panic nilDeref⟩
      | none =>
        ⟨.newRequest .POST url :: (sendRequest net (some ⟨.POST, net.urlParsed url, some b,
            Header.add net [] ContentType ContentTypeJsonVal⟩)).trace,
          (sendRequest net (some ⟨.POST, net.urlParsed url, some b,
            Header.add net [] ContentType ContentTypeJsonVal⟩)).out⟩ := by
  cases h : net.urlError url <;>
    simp [doPost, httpNewRequest, headerAdd, goPanic, bind, Run.bind, pure, h]

theorem doPut_eq (net : Net) (url : String) (b : Bytes) :
    doPut net url b =
      match net.urlError url with
      | some _ => ⟨[.newRequest .PUT url], .panic nilDeref⟩
      | none =>
        ⟨.newRequest .PUT url :: (sendRequest net (some ⟨.PUT, net.urlParsed url, some b,
            Header.add net [] ContentType ContentTypeJsonVal⟩)).trace,
          (sendRequest net (some ⟨.PUT, net.urlParsed url, some b,
            Header.add net [] ContentType ContentTypeJsonVal⟩)).out⟩ := by
  cases h : net.urlError url <;>
    simp [doPut, httpNewRequest, headerAdd, goPanic, bind, Run.bind, pure, h]

theorem Post_of_url_ok (k : PkgConsts) (net : Net) (url contentType : String)
    (contentLength : Int) (timeoutStr : String) (hurl : net.urlError url = none) :
    DefaultHttpClient.Post k net url contentType contentLength timeoutStr =
      match net.parseDuration timeoutStr with
      | .ok d =>
        ⟨.newRequest .POST url ::
          (makeRequestAndGetResponse net d
            (some (postRequest k net url contentType contentLength))).trace,
          (makeRequestAndGetResponse net d
            (some (postRequest k net url contentType contentLength))).out⟩
      | .error e =>
        ⟨.newRequest .POST url :: .logError ("parse timeout duration error : " ++ e) ::
          (makeRequestAndGetResponse net 0
            (some (postRequest k net url contentType contentLength))).trace,
          (makeRequestAndGetResponse net 0
            (some (postRequest k net url contentType contentLength))).out⟩ := by
  cases hd : net.parseDuration timeoutStr <;>
    simp [DefaultHttpClient.Post, httpNewRequest, headerSet, timeParseDuration, postRequest,
      emit, bind, Run.bind, pure, hurl, hd]

theorem Post_of_url_error (k : PkgConsts) (net : Net) (url contentType : String)
    (contentLength : Int) (timeoutStr : String) (e : GoError)
    (hurl : net.urlError url = some e) :
    DefaultHttpClient.Post k net url contentType contentLength timeoutStr =
      ⟨[.newRequest .POST url], .panic nilDeref⟩ := by
  simp [DefaultHttpClient.Post, httpNewRequest, headerSet, goPanic, bind, Run.bind, hurl]

theorem makeRequestAndGetResponse_returns (net : Net) (timeout : Int) (r : Request) :
    ∃ res, (makeRequestAndGetResponse net timeout (some r)).out = .ret res := by
  rw [makeRequestAndGetResponse_some]
  cases net.roundTrip r timeout with
  | error e => exact ⟨_, rfl⟩
  | ok resp => cases hb : resp.body <;> simp [hb]

theorem makeRequestAndGetResponse_calls (net : Net) (timeout : Int) (r : Request) :
    transportCalls (makeRequestAndGetResponse net timeout (some r)).trace = [(r, timeout)] := by
  rw [makeRequestAndGetResponse_some]
  cases net.roundTrip r timeout with
  | error e => rfl
  | ok resp => cases hb : resp.body <;> simp [hb, transportCalls]

theorem makeRequestAndGetResponse_out (net : Net) (timeout : Int) (req : Request) :
    (makeRequestAndGetResponse net timeout (some req)).out =
      .ret (match net.roundTrip req timeout with
        | .error e => ([], 500, some e)
        | .ok resp =>
          match resp.body with
          | .error e => ([], 500, some e)
          | .ok bodyBytes => (bodyBytes, resp.statusCode, none)) := by
  rw [makeRequestAndGetResponse_some]
  cases net.roundTrip req timeout with
  | error e => simp
  | ok resp => cases hb : resp.body <;> simp [hb]

theorem Post_out_of_url_ok (k : PkgConsts) (net : Net) (url contentType : String)
    (contentLength : Int) (timeoutStr : String) (hurl : net.urlError url = none) :
    (DefaultHttpClient.Post k net url contentType contentLength timeoutStr).out =
      (makeRequestAndGetResponse net (timeParseDuration net timeoutStr).1
        (some (postRequest k net url contentType contentLength))).out := by
  rw [Post_of_url_ok k net url contentType contentLength timeoutStr hurl]
  unfold timeParseDuration
  cases net.parseDuration timeoutStr <;> rfl

/-- C8: for a request that is constructed, `Post` returns what its transport
step returns on that request under the parsed timeout: `(empty, 500, e)` when
the transport call or the read of the body fails with `e`, and otherwise the
whole body, the status code of the response as it is and a nil error. So `Post`
returns a non-nil error only together with status 500 and no bytes. The
transport step does so on every request and timeout it is given. -/
theorem Post_returns_transport_result (k : PkgConsts) (net : Net) (url contentType : String)
    (contentLength : Int) (timeoutStr : String) (hurl : net.urlError url = none) :
    (DefaultHttpClient.Post k net url contentType contentLength timeoutStr).out =
        .ret (match net.roundTrip (postRequest k net url contentType contentLength)
            (timeParseDuration net timeoutStr).1 with
          | .error e => ([], 500, some e)
          | .ok resp =>
            match resp.body with
            | .error e => ([], 500, some e)
            | .ok bodyBytes => (bodyBytes, resp.statusCode, none)) ∧
      (∀ bodyBytes status e,
        (DefaultHttpClient.Post k net url contentType contentLength timeoutStr).out
            = .ret (bodyBytes, status, some e) →
          status = 500 ∧ bodyBytes = []) ∧
      (∀ timeout req,
        (makeRequestAndGetResponse net timeout (some req)).out =
          .ret (match net.roundTrip req timeout with
            | .error e => ([], 500, some e)
            | .ok resp =>
              match resp.body with
              | .error e => ([], 500, some e)
              | .ok bodyBytes => (bodyBytes, resp.statusCode, none))) ∧
      (∀ timeout req bodyBytes status e,
        (makeRequestAndGetResponse net timeout (some req)).out
            = .ret (bodyBytes, status, some e) →
          status = 500 ∧ bodyBytes = []) := by
  have hstep : ∀ timeout req bodyBytes status e,
      (makeRequestAndGetResponse net timeout (some req)).out
          = .ret (bodyBytes, status, some e) →
        status = 500 ∧ bodyBytes = [] := by
    intro timeout req bodyBytes status e
    rw [makeRequestAndGetResponse_out]
    cases net.roundTrip req timeout with
    | error e1 =>
      intro h
      simp only [Outcome.ret.injEq, Prod.mk.injEq] at h
      exact ⟨h.2.1.symm, h.1.symm⟩
    | ok resp =>
      cases hb : resp.body with
      | error e1 =>
        intro h
        simp only [hb, Outcome.ret.injEq, Prod.mk.injEq] at h
        exact ⟨h.2.1.symm, h.1.symm⟩
      | ok b =>
        intro h
        simp [hb] at h
  have hp := Post_out_of_url_ok k net url contentType contentLength timeoutStr hurl
  refine ⟨?_, ?_, fun timeout req => makeRequestAndGetResponse_out net timeout req, hstep⟩
  · rw [hp, makeRequestAndGetResponse_out]
  · intro bodyBytes status e hout
    rw [hp] at hout
    exact hstep _ _ bodyBytes status e hout

/-- Witness of C8 in the sample environment: a 404 answer comes back with its body
and status, a refused connection and a body that fails while read come back as
status 500 with the error. -/
theorem Post_returns_transport_result_witness :
    (DefaultHttpClient.Post demoConsts demoNet "http://h/missing" "text/plain" 0 "5s").out
        = .ret ([110, 111], 404, none) ∧
      (DefaultHttpClient.Post demoConsts demoNet "http://down:80/ping" "text/plain" 0 "5s").out
        = .ret ([], 500, some "dial tcp: connection refused") ∧
      (DefaultHttpClient.Post demoConsts demoNet "http://h/broken" "text/plain" 0 "5s").out
        = .ret ([], 500, some "unexpected EOF") :=
  ⟨(Post_returns_transport_result demoConsts demoNet "http://h/missing" "text/plain" 0 "5s"
      (by decide)).1.trans (by decide),
    (Post_returns_transport_result demoConsts demoNet "http://down:80/ping" "text/plain" 0 "5s"
      (by decide)).1.trans (by decide),
    (Post_returns_transport_result demoConsts demoNet "http://h/broken" "text/plain" 0 "5s"
      (by decide)).1.trans (by decide)⟩

/-- C7: when the request is constructed and the timeout string does not parse,
`Post` does not panic, makes exactly one transport call, with a client timeout of
zero, and returns the result of that call: the result `Post` has for any timeout
string that parses to zero. -/
theorem Post_unparsable_timeout (k : PkgConsts) (net : Net) (url contentType : String)
    (contentLength : Int) (timeoutStr : String) (e : GoError)
    (hurl : net.urlError url = none) (hts : net.parseDuration timeoutStr = .error e) :
    (∃ res, (DefaultHttpClient.Post k net url contentType contentLength timeoutStr).out
        = .ret res) ∧
      transportCalls (DefaultHttpClient.Post k net url contentType contentLength timeoutStr).trace
        = [(postRequest k net url contentType contentLength, 0)] ∧
      (DefaultHttpClient.Post k net url contentType contentLength timeoutStr).out
        = (makeRequestAndGetResponse net 0
            (some (postRequest k net url contentType contentLength))).out ∧
      ∀ zeroStr, net.parseDuration zeroStr = .ok 0 →
        (DefaultHttpClient.Post k net url contentType contentLength zeroStr).out
          = (DefaultHttpClient.Post k net url contentType contentLength timeoutStr).out := by
  have h := Post_of_url_ok k net url contentType contentLength timeoutStr hurl
  rw [hts] at h
  refine ⟨?_, ?_, ?_, ?_⟩
  · rw [h]; exact makeRequestAndGetResponse_returns net 0 _
  · rw [h]; exact makeRequestAndGetResponse_calls net 0 _
  · rw [h]
  · intro zeroStr hz
    have h0 := Post_of_url_ok k net url contentType contentLength zeroStr hurl
    rw [hz] at h0
    rw [h, h0]

/-- Witness of C7 in the sample environment: the timeout string `soon` does not parse. -/
theorem Post_unparsable_timeout_witness :
    (∃ res, (DefaultHttpClient.Post demoConsts demoNet "http://h/missing" "text/plain" 0
        "soon").out = .ret res) ∧
      transportCalls (DefaultHttpClient.Post demoConsts demoNet "http://h/missing" "text/plain" 0
        "soon").trace = [(postRequest demoConsts demoNet "http://h/missing" "text/plain" 0, 0)] ∧
      (DefaultHttpClient.Post demoConsts demoNet "http://h/missing" "text/plain" 0 "soon").out
        = .ret ([110, 111], 404, none) ∧
      (DefaultHttpClient.Post demoConsts demoNet "http://h/missing" "text/plain" 0 "0s").out
        = (DefaultHttpClient.Post demoConsts demoNet "http://h/missing" "text/plain" 0 "soon").out :=
  have h := Post_unparsable_timeout demoConsts demoNet "http://h/missing" "text/plain" 0 "soon"
    "time: invalid duration" (by decide) rfl
  ⟨h.1, h.2.1, by decide, h.2.2.2 "0s" rfl⟩

/-- C9: when the construction of the request fails, `Post` panics on the nil
request at the first header assignment: nothing is logged, the timeout is not
parsed into a client, no transport call is made and no triple is returned. -/
theorem Post_construction_failure_panics (k : PkgConsts) (net : Net) (url contentType : String)
    (contentLength : Int) (timeoutStr : String) (e : GoError)
    (hurl : net.urlError url = some e) :
    DefaultHttpClient.Post k net url contentType contentLength timeoutStr =
      ⟨[.newRequest .POST url], .panic nilDeref⟩ :=
  Post_of_url_error k net url contentType contentLength timeoutStr e hurl

/-- Witness of C9 in the sample environment: a URL whose host holds a blank. -/
theorem Post_construction_failure_panics_witness :
    demoNet.urlError "http://bad host/ping" = some "parse: invalid character in host name" ∧
      DefaultHttpClient.Post demoConsts demoNet "http://bad host/ping" "text/plain" 0 "5s" =
        ⟨[.newRequest .POST "http://bad host/ping"], .panic nilDeref⟩ :=
  ⟨by decide, Post_construction_failure_panics demoConsts demoNet "http://bad host/ping"
    "text/plain" 0 "5s" "parse: invalid character in host name" (by decide)⟩

theorem Header.get_set (net : Net) (h : Header) (key value : String) :
    Header.get net (Header.set net h key value) key = some value := by
  have hnone : List.find? (fun kv => decide (kv.1 = net.canonicalKey key))
      (List.filter (fun kv => decide (kv.1 ≠ net.canonicalKey key)) h) = none := by
    rw [List.find?_eq_none]
    intro x hx
    simp only [List.mem_filter] at hx
    simpa using hx.2
  simp [Header.get, Header.set, List.find?_append, hnone]

theorem makeRequestAndGetResponse_clientDo_mem (net : Net) (d : Int) (r req : Request)
    (timeout : Int)
    (h : Event.clientDo req timeout ∈ (makeRequestAndGetResponse net d (some r)).trace) :
    req = r ∧ timeout = d := by
  rw [makeRequestAndGetResponse_some] at h
  cases hr : net.roundTrip r d with
  | error e => simpa [hr] using h
  | ok resp => cases hb : resp.body <;> simpa [hr, hb] using h

theorem toDigitsCore_last (fuel n : Nat) (ds : List Char) :
    ∃ pre, Nat.toDigitsCore 10 (fuel + 1) n ds = pre ++ Nat.digitChar (n % 10) :: ds := by
  induction fuel generalizing n ds with
  | zero =>
    refine ⟨[], ?_⟩
    simp [Nat.toDigitsCore]
  | succ f ih =>
    rw [Nat.toDigitsCore]
    by_cases h0 : n / 10 = 0
    · exact ⟨[], by simp [h0]⟩
    · obtain ⟨pre, hpre⟩ := ih (n / 10) (Nat.digitChar (n % 10) :: ds)
      exact ⟨pre ++ [Nat.digitChar (n / 10 % 10)], by simp [h0, hpre]⟩

theorem repr_singleton (n : Nat) (c : Char) (h : String.singleton c = Nat.repr n) :
    c = Nat.digitChar (n % 10) := by
  obtain ⟨pre, hpre⟩ := toDigitsCore_last n n []
  have hd : [c] = pre ++ [Nat.digitChar (n % 10)] := by
    have := congrArg String.data h
    simpa [Nat.repr, Nat.toDigits, hpre, String.singleton] using this
  have := congrArg List.getLast? hd
  simpa using this

theorem digitChar_toNat (m : Nat) (h : m < 10) : (Nat.digitChar m).toNat = 48 + m := by
  interval_cases m <;> rfl

theorem ofNat_toNat_of_valid (n : Nat) (hv : n < 55296 ∨ 57343 < n ∧ n < 1114112) :
    (Char.ofNat n).toNat = n := by
  have hv2 : n.isValidChar := hv
  unfold Char.ofNat
  rw [dif_pos hv2]
  rfl

theorem intToString_ne_decimal (i : Int) : intToString i ≠ decimal i := by
  intro h
  cases i with
  | ofNat n =>
    have h2 := digitChar_toNat (n % 10) (Nat.mod_lt _ (by decide))
    by_cases hv : n < 55296 ∨ 57343 < n ∧ n < 1114112
    · have hc := repr_singleton n (Char.ofNat n) (by simpa [intToString, hv, decimal] using h)
      rw [← hc, ofNat_toNat_of_valid n hv] at h2
      omega
    · have hc := repr_singleton n runeError (by simpa [intToString, hv, decimal] using h)
      rw [← hc] at h2
      have : runeError.toNat = 65533 := by decide
      omega
  | negSucc n =>
    have := congrArg String.data h
    simp [intToString, decimal, String.singleton] at this
    exact absurd this.1 (by decide)

/-- C10: the content-length header of every request `Post` hands to the transport
holds `string(contentLength)`: the one code point `contentLength`, or U+FFFD when
that is no valid code point. It is never the decimal text of `contentLength`; for
0 it is the one-byte string NUL and for 65 it is the letter A. -/
theorem Post_content_length_header (k : PkgConsts) (net : Net) (url contentType : String)
    (contentLength : Int) (timeoutStr : String) :
    (∀ req timeout,
        Event.clientDo req timeout ∈
            (DefaultHttpClient.Post k net url contentType contentLength timeoutStr).trace →
          Header.get net req.header k.ContentLengthKey = some (intToString contentLength)) ∧
      (net.urlError url = none →
        ∃ req timeout, Event.clientDo req timeout ∈
          (DefaultHttpClient.Post k net url contentType contentLength timeoutStr).trace) ∧
      (∃ c : Char, intToString contentLength = String.singleton c ∧
        (c.toNat : Int) =
          if 0 ≤ contentLength ∧
              (contentLength < 0xD800 ∨ (0xDFFF < contentLength ∧ contentLength < 0x110000))
          then contentLength else 0xFFFD) ∧
      intToString contentLength ≠ decimal contentLength ∧
      (intToString 0 = String.singleton (Char.ofNat 0) ∧ (intToString 0).utf8ByteSize = 1 ∧
        decimal 0 = "0") ∧
      (intToString 65 = "A" ∧ decimal 65 = "65") := by
  refine ⟨?_, ?_, ?_, intToString_ne_decimal contentLength, by decide, by decide⟩
  · intro req timeout hmem
    cases hurl : net.urlError url with
    | some e =>
      rw [Post_of_url_error k net url contentType contentLength timeoutStr e hurl]
        at hmem
      simp at hmem
    | none =>
      rw [Post_of_url_ok k net url contentType contentLength timeoutStr hurl] at hmem
      have key : ∀ d, Event.clientDo req timeout ∈ (makeRequestAndGetResponse net d
          (some (postRequest k net url contentType contentLength))).trace →
          Header.get net req.header k.ContentLengthKey = some (intToString contentLength) := by
        intro d hd
        obtain ⟨hreq, -⟩ := makeRequestAndGetResponse_clientDo_mem net d _ req timeout hd
        rw [hreq]
        exact Header.get_set net _ _ _
      cases hd : net.parseDuration timeoutStr with
      | ok d => rw [hd] at hmem; simp at hmem; exact key d hmem
      | error e => rw [hd] at hmem; simp at hmem; exact key 0 hmem
  · intro hurl
    have hc : ∀ d, Event.clientDo (postRequest k net url contentType contentLength) d ∈
        (makeRequestAndGetResponse net d
          (some (postRequest k net url contentType contentLength))).trace := by
      intro d
      rw [makeRequestAndGetResponse_some]
      cases hr : net.roundTrip (postRequest k net url contentType contentLength) d with
      | error e => simp
      | ok resp => cases hb : resp.body <;> simp [hb]
    rw [Post_of_url_ok k net url contentType contentLength timeoutStr hurl]
    cases hd : net.parseDuration timeoutStr with
    | ok d => exact ⟨postRequest k net url contentType contentLength, d, by simp [hc d]⟩
    | error e => exact ⟨postRequest k net url contentType contentLength, 0, by simp [hc 0]⟩
  · by_cases hv : 0 ≤ contentLength ∧
        (contentLength < 0xD800 ∨ (0xDFFF < contentLength ∧ contentLength < 0x110000))
    · refine ⟨Char.ofNat contentLength.toNat, by simp [intToString, hv], ?_⟩
      rw [if_pos hv, ofNat_toNat_of_valid _ (by omega)]
      omega
    · refine ⟨runeError, by simp [intToString, hv], ?_⟩
      rw [if_neg hv]
      decide

theorem url_key (host : String) (port : Int) (id : String) :
    sprintfUrl host port ScheduleApiPath ++ "/" ++ id
      = BASE host port ++ "/api/v1/schedule/" ++ id := by
  simp [sprintfUrl, BASE, ScheduleApiPath, String.append_assoc]

theorem doGet_run (net : Net) (url : String) :
    doGet net url =
      match net.urlError url with
      | some e => ⟨[.newRequest .GET url], .ret ([], some e)⟩
      | none =>
        match net.roundTrip ⟨.GET, net.urlParsed url, none, []⟩ 0 with
        | .error e =>
          ⟨[.newRequest .GET url, .clientDo ⟨.GET, net.urlParsed url, none, []⟩ 0],
            .ret ([], some e)⟩
        | .ok resp =>
          match resp.body with
          | .error e =>
            ⟨[.newRequest .GET url, .clientDo ⟨.GET, net.urlParsed url, none, []⟩ 0,
              .markClose, .readAll, .bodyClose], .ret ([], some e)⟩
          | .ok b =>
            ⟨[.newRequest .GET url, .clientDo ⟨.GET, net.urlParsed url, none, []⟩ 0,
              .markClose, .readAll, .bodyClose], .ret (b, none)⟩ := by
  rw [doGet_eq, sendRequestAndGetResponse_some]
  cases net.urlError url with
  | some e => rfl
  | none =>
    cases net.roundTrip ⟨.GET, net.urlParsed url, none, []⟩ 0 with
    | error e => rfl
    | ok resp => cases hb : resp.body <;> simp [hb]

theorem doDelete_run (net : Net) (url : String) :
    doDelete net url =
      match net.urlError url with
      | some e => ⟨[.newRequest .DELETE url], .ret (some e)⟩
      | none =>
        match net.roundTrip ⟨.DELETE, net.urlParsed url, none, []⟩ 0 with
        | .error e =>
          ⟨[.newRequest .DELETE url, .clientDo ⟨.DELETE, net.urlParsed url, none, []⟩ 0], .ret (some e)⟩
        | .ok _ =>
          ⟨[.newRequest .DELETE url, .clientDo ⟨.DELETE, net.urlParsed url, none, []⟩ 0, .markClose,
            .bodyClose], .ret none⟩ := by
  rw [doDelete_eq, sendRequest_some]
  cases net.urlError url with
  | some e => rfl
  | none => cases net.roundTrip ⟨.DELETE, net.urlParsed url, none, []⟩ 0 <;> rfl

theorem doPost_run (net : Net) (url : String) (b : Bytes) :
    doPost net url b =
      match net.urlError url with
      | some _ => ⟨[.newRequest .POST url], .panic nilDeref⟩
      | none =>
        match net.roundTrip
          ⟨.POST, net.urlParsed url, some b, Header.add net [] ContentType ContentTypeJsonVal⟩ 0 with
        | .error e =>
          ⟨[.newRequest .POST url,
            .clientDo ⟨.POST, net.urlParsed url, some b, Header.add net [] ContentType ContentTypeJsonVal⟩ 0],
            .ret (some e)⟩
        | .ok _ =>
          ⟨[.newRequest .POST url,
            .clientDo ⟨.POST, net.urlParsed url, some b, Header.add net [] ContentType ContentTypeJsonVal⟩ 0,
            .markClose, .bodyClose], .ret none⟩ := by
  rw [doPost_eq, sendRequest_some]
  cases net.urlError url with
  | some e => rfl
  | none =>
    cases net.roundTrip
      ⟨.POST, net.urlParsed url, some b, Header.add net [] ContentType ContentTypeJsonVal⟩ 0 <;> rfl

theorem doPut_run (net : Net) (url : String) (b : Bytes) :
    doPut net url b =
      match net.urlError url with
      | some _ => ⟨[.newRequest .PUT url], .panic nilDeref⟩
      | none =>
        match net.roundTrip
          ⟨.PUT, net.urlParsed url, some b, Header.add net [] ContentType ContentTypeJsonVal⟩ 0 with
        | .error e =>
          ⟨[.newRequest .PUT url,
            .clientDo ⟨.PUT, net.urlParsed url, some b, Header.add net [] ContentType ContentTypeJsonVal⟩ 0],
            .ret (some e)⟩
        | .ok _ =>
          ⟨[.newRequest .PUT url,
            .clientDo ⟨.PUT, net.urlParsed url, some b, Header.add net [] ContentType ContentTypeJsonVal⟩ 0,
            .markClose, .bodyClose], .ret none⟩ := by
  rw [doPut_eq, sendRequest_some]
  cases net.urlError url with
  | some e => rfl
  | none =>
    cases net.roundTrip
      ⟨.PUT, net.urlParsed url, some b, Header.add net [] ContentType ContentTypeJsonVal⟩ 0 <;> rfl

theorem decodeStep_trace {T : Type} (c : Codec T) (r : Bytes × Option GoError) :
    (decodeStep c r).trace = [] := by
  unfold decodeStep
  split
  · rfl
  · split <;> rfl

theorem QuerySchedule_eq {S : Type} (net : Net) (cs : Codec S) (src : SchedulerRestClient)
    (id : String) :
    src.QuerySchedule net cs id =
      (doGet net (BASE src.SchedulerServiceHost src.SchedulerServicePort
        ++ "/api/v1/schedule/" ++ id)).bind (decodeStep cs) := by
  rw [← url_key]
  rfl

theorem QueryScheduleWithName_eq {S : Type} (net : Net) (cs : Codec S)
    (src : SchedulerRestClient) (scheduleName : String) :
    src.QueryScheduleWithName net cs scheduleName =
      (doGet net (BASE src.SchedulerServiceHost src.SchedulerServicePort
        ++ "/api/v1/schedule/name/" ++ scheduleName)).bind (decodeStep cs) := by
  have hu : sprintfUrl src.SchedulerServiceHost src.SchedulerServicePort ScheduleApiPath
      ++ "/name/" ++ scheduleName
      = BASE src.SchedulerServiceHost src.SchedulerServicePort
        ++ "/api/v1/schedule/name/" ++ scheduleName := by
    simp [sprintfUrl, BASE, ScheduleApiPath, String.append_assoc]
  rw [← hu]
  rfl

theorem QueryScheduleEvent_eq {E : Type} (net : Net) (ce : Codec E) (src : SchedulerRestClient)
    (id : String) :
    src.QueryScheduleEvent net ce id =
      (doGet net (BASE src.SchedulerServiceHost src.SchedulerServicePort
        ++ "/api/v1/scheduleevent/" ++ id)).bind (decodeStep ce) := by
  have hu : sprintfUrl src.SchedulerServiceHost src.SchedulerServicePort ScheduleEventApiPath
      ++ "/" ++ id
      = BASE src.SchedulerServiceHost src.SchedulerServicePort
        ++ "/api/v1/scheduleevent/" ++ id := by
    simp [sprintfUrl, BASE, ScheduleEventApiPath, String.append_assoc]
  rw [← hu]
  rfl

theorem RemoveSchedule_eq (net : Net) (src : SchedulerRestClient) (id : String) :
    src.RemoveSchedule net id =
      doDelete net (BASE src.SchedulerServiceHost src.SchedulerServicePort
        ++ "/api/v1/schedule/" ++ id) := by
  rw [← url_key]
  rfl

theorem RemoveScheduleEvent_eq (net : Net) (src : SchedulerRestClient) (id : String) :
    src.RemoveScheduleEvent net id =
      doDelete net (BASE src.SchedulerServiceHost src.SchedulerServicePort
        ++ "/api/v1/scheduleevent/" ++ id) := by
  have hu : sprintfUrl src.SchedulerServiceHost src.SchedulerServicePort ScheduleEventApiPath
      ++ "/" ++ id
      = BASE src.SchedulerServiceHost src.SchedulerServicePort
        ++ "/api/v1/scheduleevent/" ++ id := by
    simp [sprintfUrl, BASE, ScheduleEventApiPath, String.append_assoc]
  rw [← hu]
  rfl

theorem AddSchedule_eq {S : Type} (net : Net) (cs : Codec S) (src : SchedulerRestClient)
    (schedule : S) :
    src.AddSchedule net cs schedule =
      match cs.marshal schedule with
      | .error e => ⟨[], .ret (some e)⟩
      | .ok requestBody =>
        doPost net (BASE src.SchedulerServiceHost src.SchedulerServicePort ++ "/api/v1/schedule")
          requestBody := rfl

theorem UpdateSchedule_eq {S : Type} (net : Net) (cs : Codec S) (src : SchedulerRestClient)
    (schedule : S) :
    src.UpdateSchedule net cs schedule =
      match cs.marshal schedule with
      | .error e => ⟨[], .ret (some e)⟩
      | .ok requestBody =>
        doPut net (BASE src.SchedulerServiceHost src.SchedulerServicePort ++ "/api/v1/schedule")
          requestBody := rfl

theorem AddScheduleEvent_eq {E : Type} (net : Net) (ce : Codec E) (src : SchedulerRestClient)
    (scheduleEvent : E) :
    src.AddScheduleEvent net ce scheduleEvent =
      match ce.marshal scheduleEvent with
      | .error e => ⟨[], .ret (some e)⟩
      | .ok requestBody =>
        doPost net
          (BASE src.SchedulerServiceHost src.SchedulerServicePort ++ "/api/v1/scheduleevent")
          requestBody := rfl

theorem UpdateScheduleEvent_eq {E : Type} (net : Net) (ce : Codec E)
    (src : SchedulerRestClient) (scheduleEvent : E) :
    src.UpdateScheduleEvent net ce scheduleEvent =
      match ce.marshal scheduleEvent with
      | .error e => ⟨[], .ret (some e)⟩
      | .ok requestBody =>
        doPut net
          (BASE src.SchedulerServiceHost src.SchedulerServicePort ++ "/api/v1/scheduleevent")
          requestBody := rfl

theorem bind_decodeStep_trace {T : Type} (m : Run (Bytes × Option GoError)) (c : Codec T) :
    (m.bind (decodeStep c)).trace = m.trace := by
  unfold Run.bind
  cases m.out with
  | ret a => simp [decodeStep_trace]
  | panic msg => rfl

theorem doGet_handsOver (net : Net) (url : String) :
    handsOver net .GET url (doGet net url).trace := by
  rw [doGet_run]
  cases net.urlError url with
  | some e => simp [handsOver, Event.aimsAt]
  | none =>
    cases net.roundTrip ⟨.GET, net.urlParsed url, none, []⟩ 0 with
    | error e => simp [handsOver, Event.aimsAt]
    | ok resp => cases hb : resp.body <;> simp [handsOver, Event.aimsAt, hb]

theorem doDelete_handsOver (net : Net) (url : String) :
    handsOver net .DELETE url (doDelete net url).trace := by
  rw [doDelete_run]
  cases net.urlError url with
  | some e => simp [handsOver, Event.aimsAt]
  | none =>
    cases net.roundTrip ⟨.DELETE, net.urlParsed url, none, []⟩ 0 <;> simp [handsOver, Event.aimsAt]

theorem doPost_handsOver (net : Net) (url : String) (b : Bytes) :
    handsOver net .POST url (doPost net url b).trace := by
  rw [doPost_run]
  cases net.urlError url with
  | some e => simp [handsOver, Event.aimsAt]
  | none =>
    cases net.roundTrip
      ⟨.POST, net.urlParsed url, some b, Header.add net [] ContentType ContentTypeJsonVal⟩ 0 <;>
      simp [handsOver, Event.aimsAt]

theorem doPut_handsOver (net : Net) (url : String) (b : Bytes) :
    handsOver net .PUT url (doPut net url b).trace := by
  rw [doPut_run]
  cases net.urlError url with
  | some e => simp [handsOver, Event.aimsAt]
  | none =>
    cases net.roundTrip
      ⟨.PUT, net.urlParsed url, some b, Header.add net [] ContentType ContentTypeJsonVal⟩ 0 <;>
      simp [handsOver, Event.aimsAt]

theorem doGet_calls (net : Net) (url : String) :
    constructions (doGet net url).trace = [(.GET, url)] ∧
      (net.urlError url = none →
        transportCalls (doGet net url).trace = [(⟨.GET, net.urlParsed url, none, []⟩, 0)]) := by
  rw [doGet_run]
  cases net.urlError url with
  | some e => simp [constructions]
  | none =>
    cases net.roundTrip ⟨.GET, net.urlParsed url, none, []⟩ 0 with
    | error e => simp [constructions, transportCalls]
    | ok resp => cases hb : resp.body <;> simp [constructions, transportCalls, hb]

theorem doDelete_calls (net : Net) (url : String) :
    constructions (doDelete net url).trace = [(.DELETE, url)] ∧
      (net.urlError url = none →
        transportCalls (doDelete net url).trace
          = [(⟨.DELETE, net.urlParsed url, none, []⟩, 0)]) := by
  rw [doDelete_run]
  cases net.urlError url with
  | some e => simp [constructions]
  | none =>
    cases net.roundTrip ⟨.DELETE, net.urlParsed url, none, []⟩ 0 <;>
      simp [constructions, transportCalls]

theorem doPost_calls (net : Net) (url : String) (b : Bytes) :
    constructions (doPost net url b).trace = [(.POST, url)] ∧
      (net.urlError url = none →
        transportCalls (doPost net url b).trace = [(⟨.POST, net.urlParsed url, some b,
          Header.add net [] ContentType ContentTypeJsonVal⟩, 0)]) := by
  rw [doPost_run]
  cases net.urlError url with
  | some e => simp [constructions]
  | none =>
    cases net.roundTrip
      ⟨.POST, net.urlParsed url, some b, Header.add net [] ContentType ContentTypeJsonVal⟩ 0 <;>
      simp [constructions, transportCalls]

theorem doPut_calls (net : Net) (url : String) (b : Bytes) :
    constructions (doPut net url b).trace = [(.PUT, url)] ∧
      (net.urlError url = none →
        transportCalls (doPut net url b).trace = [(⟨.PUT, net.urlParsed url, some b,
          Header.add net [] ContentType ContentTypeJsonVal⟩, 0)]) := by
  rw [doPut_run]
  cases net.urlError url with
  | some e => simp [constructions]
  | none =>
    cases net.roundTrip
      ⟨.PUT, net.urlParsed url, some b, Header.add net [] ContentType ContentTypeJsonVal⟩ 0 <;>
      simp [constructions, transportCalls]

/-- C1: every operation of the Resource Client hands the standard library the
method and the URL of its row of the table. Unless the entity does not encode
(then nothing is handed over), it constructs exactly one request, for exactly
that method and URL text, first of all; and when that URL parses it makes
exactly one transport call, on a request that carries that method and the URL
parsed from that text. No other construction or transport call occurs, and the
trace does not depend on `OwningService`. -/
theorem table_method_and_url {S E : Type} (net : Net) (cs : Codec S) (ce : Codec E)
    (host : String) (port : Int) (os : String) (op : Op S E) :
    (∀ e ∈ op.trace net cs ce ⟨host, port, os⟩,
        e.aimsAt net op.tableMethod (op.tableUrl host port)) ∧
      (op.trace net cs ce ⟨host, port, os⟩).head? =
        (if op.encodes cs ce then some (.newRequest op.tableMethod (op.tableUrl host port))
          else none) ∧
      constructions (op.trace net cs ce ⟨host, port, os⟩) =
        (if op.encodes cs ce then [(op.tableMethod, op.tableUrl host port)] else []) ∧
      (op.encodes cs ce = true → net.urlError (op.tableUrl host port) = none →
        ∃ r, transportCalls (op.trace net cs ce ⟨host, port, os⟩) = [(r, 0)] ∧
          r.method = op.tableMethod ∧ r.url = net.urlParsed (op.tableUrl host port)) ∧
      ∀ os2, op.trace net cs ce ⟨host, port, os2⟩ = op.trace net cs ce ⟨host, port, os⟩ := by
  cases op with
  | QuerySchedule id =>
    simp only [Op.trace, Op.tableMethod, Op.tableUrl, Op.encodes, QuerySchedule_eq,
      bind_decodeStep_trace]
    exact ⟨(doGet_handsOver net _).2, by simpa using (doGet_handsOver net _).1,
      by simpa using (doGet_calls net _).1,
      fun _ hurl => ⟨_, (doGet_calls net _).2 hurl, rfl, rfl⟩, fun _ => trivial⟩
  | QueryScheduleWithName scheduleName =>
    simp only [Op.trace, Op.tableMethod, Op.tableUrl, Op.encodes, QueryScheduleWithName_eq,
      bind_decodeStep_trace]
    exact ⟨(doGet_handsOver net _).2, by simpa using (doGet_handsOver net _).1,
      by simpa using (doGet_calls net _).1,
      fun _ hurl => ⟨_, (doGet_calls net _).2 hurl, rfl, rfl⟩, fun _ => trivial⟩
  | QueryScheduleEvent id =>
    simp only [Op.trace, Op.tableMethod, Op.tableUrl, Op.encodes, QueryScheduleEvent_eq,
      bind_decodeStep_trace]
    exact ⟨(doGet_handsOver net _).2, by simpa using (doGet_handsOver net _).1,
      by simpa using (doGet_calls net _).1,
      fun _ hurl => ⟨_, (doGet_calls net _).2 hurl, rfl, rfl⟩, fun _ => trivial⟩
  | RemoveSchedule id =>
    simp only [Op.trace, Op.tableMethod, Op.tableUrl, Op.encodes, RemoveSchedule_eq]
    exact ⟨(doDelete_handsOver net _).2, by simpa using (doDelete_handsOver net _).1,
      by simpa using (doDelete_calls net _).1,
      fun _ hurl => ⟨_, (doDelete_calls net _).2 hurl, rfl, rfl⟩, fun _ => trivial⟩
  | RemoveScheduleEvent id =>
    simp only [Op.trace, Op.tableMethod, Op.tableUrl, Op.encodes, RemoveScheduleEvent_eq]
    exact ⟨(doDelete_handsOver net _).2, by simpa using (doDelete_handsOver net _).1,
      by simpa using (doDelete_calls net _).1,
      fun _ hurl => ⟨_, (doDelete_calls net _).2 hurl, rfl, rfl⟩, fun _ => trivial⟩
  | AddSchedule schedule =>
    simp only [Op.trace, Op.tableMethod, Op.tableUrl, Op.encodes, AddSchedule_eq]
    cases cs.marshal schedule with
    | error e => simp [Except.toBool, constructions]
    | ok b =>
      exact ⟨(doPost_handsOver net _ b).2,
        by simpa [Except.toBool] using (doPost_handsOver net _ b).1,
        by simpa [Except.toBool] using (doPost_calls net _ b).1,
        fun _ hurl => ⟨_, (doPost_calls net _ b).2 hurl, rfl, rfl⟩, fun _ => trivial⟩
  | UpdateSchedule schedule =>
    simp only [Op.trace, Op.tableMethod, Op.tableUrl, Op.encodes, UpdateSchedule_eq]
    cases cs.marshal schedule with
    | error e => simp [Except.toBool, constructions]
    | ok b =>
      exact ⟨(doPut_handsOver net _ b).2,
        by simpa [Except.toBool] using (doPut_handsOver net _ b).1,
        by simpa [Except.toBool] using (doPut_calls net _ b).1,
        fun _ hurl => ⟨_, (doPut_calls net _ b).2 hurl, rfl, rfl⟩, fun _ => trivial⟩
  | AddScheduleEvent scheduleEvent =>
    simp only [Op.trace, Op.tableMethod, Op.tableUrl, Op.encodes, AddScheduleEvent_eq]
    cases ce.marshal scheduleEvent with
    | error e => simp [Except.toBool, constructions]
    | ok b =>
      exact ⟨(doPost_handsOver net _ b).2,
        by simpa [Except.toBool] using (doPost_handsOver net _ b).1,
        by simpa [Except.toBool] using (doPost_calls net _ b).1,
        fun _ hurl => ⟨_, (doPost_calls net _ b).2 hurl, rfl, rfl⟩, fun _ => trivial⟩
  | UpdateScheduleEvent scheduleEvent =>
    simp only [Op.trace, Op.tableMethod, Op.tableUrl, Op.encodes, UpdateScheduleEvent_eq]
    cases ce.marshal scheduleEvent with
    | error e => simp [Except.toBool, constructions]
    | ok b =>
      exact ⟨(doPut_handsOver net _ b).2,
        by simpa [Except.toBool] using (doPut_handsOver net _ b).1,
        by simpa [Except.toBool] using (doPut_calls net _ b).1,
        fun _ hurl => ⟨_, (doPut_calls net _ b).2 hurl, rfl, rfl⟩, fun _ => trivial⟩

/-- Witness of C1 in the sample environment: a query for the key `a b` constructs
one GET request for the URL text of the table and makes one transport call, on
a request that carries the URL parsed from that text, its blank escaped. -/
theorem table_method_and_url_witness :
    constructions (Op.trace demoNet demoCodec demoCodec demoClient
        (.QuerySchedule "a b" : Op Bytes Bytes))
        = [(.GET, "http://localhost:48085/api/v1/schedule/a b")] ∧
      ∃ r, transportCalls (Op.trace demoNet demoCodec demoCodec demoClient
          (.QuerySchedule "a b" : Op Bytes Bytes)) = [(r, 0)] ∧
        r.method = .GET ∧ r.url = "http://localhost:48085/api/v1/schedule/a%20b" :=
  have h := table_method_and_url demoNet demoCodec demoCodec "localhost" 48085 "svc"
    (.QuerySchedule "a b" : Op Bytes Bytes)
  ⟨h.2.2.1.trans (by decide),
    (h.2.2.2.1 rfl (by decide)).imp fun _ hr => ⟨hr.1, hr.2.1, hr.2.2.trans (by decide)⟩⟩

theorem bind_decodeStep_out {T : Type} (m : Run (Bytes × Option GoError)) (c : Codec T)
    (r : Bytes × Option GoError) (h : m.out = .ret r) :
    (m.bind (decodeStep c)).out = (decodeStep c r).out := by
  unfold Run.bind
  rw [h]

theorem doGet_out_of_body (net : Net) (url : String) (status : Int) (b : Bytes)
    (hurl : net.urlError url = none)
    (hresp : net.roundTrip ⟨.GET, net.urlParsed url, none, []⟩ 0 = .ok ⟨status, .ok b⟩) :
    (doGet net url).out = .ret (b, none) := by
  rw [doGet_run, hurl]
  simp only [hresp]

theorem decodeStep_out {T : Type} (c : Codec T) (b : Bytes) :
    (decodeStep c (b, none)).out =
      .ret (match c.unmarshal b with
        | .error e => (c.zero, some e)
        | .ok entity => (entity, none)) := by
  unfold decodeStep
  cases c.unmarshal b <;> rfl

/-- C3: when the request of a query is constructed and the transport delivers a
response, of any status code, whose body reads as the bytes `b`, the operation
returns the zero entity together with the decoding error if `b` does not decode,
and the decoded entity together with a nil error if it does. -/
theorem query_decodes_body {T : Type} (net : Net) (c : Codec T) (src : SchedulerRestClient)
    (key : String) (status : Int) (b : Bytes) :
    (net.urlError (BASE src.SchedulerServiceHost src.SchedulerServicePort
          ++ "/api/v1/schedule/" ++ key) = none →
      net.roundTrip ⟨.GET, net.urlParsed (BASE src.SchedulerServiceHost src.SchedulerServicePort
          ++ "/api/v1/schedule/" ++ key), none, []⟩ 0 = .ok ⟨status, .ok b⟩ →
      (src.QuerySchedule net c key).out =
        .ret (match c.unmarshal b with
          | .error e => (c.zero, some e)
          | .ok entity => (entity, none))) ∧
    (net.urlError (BASE src.SchedulerServiceHost src.SchedulerServicePort
          ++ "/api/v1/schedule/name/" ++ key) = none →
      net.roundTrip ⟨.GET, net.urlParsed (BASE src.SchedulerServiceHost src.SchedulerServicePort
          ++ "/api/v1/schedule/name/" ++ key), none, []⟩ 0 = .ok ⟨status, .ok b⟩ →
      (src.QueryScheduleWithName net c key).out =
        .ret (match c.unmarshal b with
          | .error e => (c.zero, some e)
          | .ok entity => (entity, none))) ∧
    (net.urlError (BASE src.SchedulerServiceHost src.SchedulerServicePort
          ++ "/api/v1/scheduleevent/" ++ key) = none →
      net.roundTrip ⟨.GET, net.urlParsed (BASE src.SchedulerServiceHost src.SchedulerServicePort
          ++ "/api/v1/scheduleevent/" ++ key), none, []⟩ 0 = .ok ⟨status, .ok b⟩ →
      (src.QueryScheduleEvent net c key).out =
        .ret (match c.unmarshal b with
          | .error e => (c.zero, some e)
          | .ok entity => (entity, none))) := by
  refine ⟨fun hurl hresp => ?_, fun hurl hresp => ?_, fun hurl hresp => ?_⟩
  · rw [QuerySchedule_eq,
      bind_decodeStep_out _ c _ (doGet_out_of_body net _ status b hurl hresp), decodeStep_out]
  · rw [QueryScheduleWithName_eq,
      bind_decodeStep_out _ c _ (doGet_out_of_body net _ status b hurl hresp), decodeStep_out]
  · rw [QueryScheduleEvent_eq,
      bind_decodeStep_out _ c _ (doGet_out_of_body net _ status b hurl hresp), decodeStep_out]

/-- Witness of C3 in the sample environment: a 404 answer whose body decodes, and a
200 answer with an empty body, which does not decode. -/
theorem query_decodes_body_witness :
    (demoClient.QuerySchedule demoNet demoCodec "missing").out = .ret ([110, 111], none) ∧
      (demoClient.QueryScheduleWithName demoNet demoCodec "empty").out
        = .ret ([], some "unexpected end of JSON input") ∧
      (demoClient.QueryScheduleEvent demoNet demoCodec "empty").out
        = .ret ([], some "unexpected end of JSON input") :=
  ⟨(query_decodes_body demoNet demoCodec demoClient "missing" 404 [110, 111]).1
      (by decide) rfl,
    (query_decodes_body demoNet demoCodec demoClient "empty" 200 []).2.1 (by decide) rfl,
    (query_decodes_body demoNet demoCodec demoClient "empty" 200 []).2.2 (by decide) rfl⟩

/-- C5: when the entity of an Add or Update does not encode, the operation returns
the encoding error and its trace is empty: no request is constructed and no
transport call is made. -/
theorem encode_failure_makes_no_call {T : Type} (net : Net) (c : Codec T)
    (src : SchedulerRestClient) (entity : T) (e : GoError) (h : c.marshal entity = .error e) :
    ((src.AddSchedule net c entity).out = .ret (some e) ∧
        (src.AddSchedule net c entity).trace = []) ∧
      ((src.UpdateSchedule net c entity).out = .ret (some e) ∧
        (src.UpdateSchedule net c entity).trace = []) ∧
      ((src.AddScheduleEvent net c entity).out = .ret (some e) ∧
        (src.AddScheduleEvent net c entity).trace = []) ∧
      ((src.UpdateScheduleEvent net c entity).out = .ret (some e) ∧
        (src.UpdateScheduleEvent net c entity).trace = []) := by
  rw [AddSchedule_eq, UpdateSchedule_eq, AddScheduleEvent_eq, UpdateScheduleEvent_eq, h]
  simp

/-- Witness of C5 in the sample environment: the entity `[0]` does not encode. -/
theorem encode_failure_makes_no_call_witness :
    demoCodec.marshal [0] = .error "json: unsupported value" ∧
      (demoClient.AddScheduleEvent demoNet demoCodec [0]).out
        = .ret (some "json: unsupported value") ∧
      (demoClient.AddScheduleEvent demoNet demoCodec [0]).trace = [] :=
  ⟨rfl, (encode_failure_makes_no_call demoNet demoCodec demoClient [0]
    "json: unsupported value" rfl).2.2.1⟩

theorem doPost_out_of_url_ok (net : Net) (url : String) (b : Bytes)
    (hurl : net.urlError url = none) :
    (doPost net url b).out = .ret (transportError (net.roundTrip
      ⟨.POST, net.urlParsed url, some b, Header.add net [] ContentType ContentTypeJsonVal⟩ 0)) := by
  rw [doPost_run, hurl]
  cases net.roundTrip
    ⟨.POST, net.urlParsed url, some b, Header.add net [] ContentType ContentTypeJsonVal⟩ 0 <;> rfl

theorem doPut_out_of_url_ok (net : Net) (url : String) (b : Bytes)
    (hurl : net.urlError url = none) :
    (doPut net url b).out = .ret (transportError (net.roundTrip
      ⟨.PUT, net.urlParsed url, some b, Header.add net [] ContentType ContentTypeJsonVal⟩ 0)) := by
  rw [doPut_run, hurl]
  cases net.roundTrip
    ⟨.PUT, net.urlParsed url, some b, Header.add net [] ContentType ContentTypeJsonVal⟩ 0 <;> rfl

theorem doDelete_out_of_url_ok (net : Net) (url : String)
    (hurl : net.urlError url = none) :
    (doDelete net url).out
      = .ret (transportError (net.roundTrip ⟨.DELETE, net.urlParsed url, none, []⟩ 0)) := by
  rw [doDelete_run, hurl]
  cases net.roundTrip ⟨.DELETE, net.urlParsed url, none, []⟩ 0 <;> rfl

/-- C2: when the entity encodes to `b` and the request is constructed, each of
Add, Update and Remove returns exactly the error of the transport call on the
request it built: nil when a response is delivered, whatever its status code,
and the error of the call itself when the call fails. -/
theorem mutation_returns_transport_error {T : Type} (net : Net) (c : Codec T)
    (src : SchedulerRestClient) (entity : T) (id : String) (b : Bytes)
    (hm : c.marshal entity = .ok b) :
    (∀ status body e, transportError (.ok ⟨status, body⟩) = none ∧
        transportError (.error e) = some e) ∧
    (net.urlError (BASE src.SchedulerServiceHost src.SchedulerServicePort
          ++ "/api/v1/schedule") = none →
      (src.AddSchedule net c entity).out = .ret (transportError (net.roundTrip
        ⟨.POST, net.urlParsed (BASE src.SchedulerServiceHost src.SchedulerServicePort ++ "/api/v1/schedule"),
          some b, Header.add net [] ContentType ContentTypeJsonVal⟩ 0)) ∧
      (src.UpdateSchedule net c entity).out = .ret (transportError (net.roundTrip
        ⟨.PUT, net.urlParsed (BASE src.SchedulerServiceHost src.SchedulerServicePort ++ "/api/v1/schedule"),
          some b, Header.add net [] ContentType ContentTypeJsonVal⟩ 0))) ∧
    (net.urlError (BASE src.SchedulerServiceHost src.SchedulerServicePort
          ++ "/api/v1/scheduleevent") = none →
      (src.AddScheduleEvent net c entity).out = .ret (transportError (net.roundTrip
        ⟨.POST, net.urlParsed (BASE src.SchedulerServiceHost src.SchedulerServicePort
          ++ "/api/v1/scheduleevent"), some b,
          Header.add net [] ContentType ContentTypeJsonVal⟩ 0)) ∧
      (src.UpdateScheduleEvent net c entity).out = .ret (transportError (net.roundTrip
        ⟨.PUT, net.urlParsed (BASE src.SchedulerServiceHost src.SchedulerServicePort
          ++ "/api/v1/scheduleevent"), some b,
          Header.add net [] ContentType ContentTypeJsonVal⟩ 0))) ∧
    (net.urlError (BASE src.SchedulerServiceHost src.SchedulerServicePort
          ++ "/api/v1/schedule/" ++ id) = none →
      (src.RemoveSchedule net id).out = .ret (transportError (net.roundTrip
        ⟨.DELETE, net.urlParsed (BASE src.SchedulerServiceHost src.SchedulerServicePort
          ++ "/api/v1/schedule/" ++ id), none, []⟩ 0))) ∧
    (net.urlError (BASE src.SchedulerServiceHost src.SchedulerServicePort
          ++ "/api/v1/scheduleevent/" ++ id) = none →
      (src.RemoveScheduleEvent net id).out = .ret (transportError (net.roundTrip
        ⟨.DELETE, net.urlParsed (BASE src.SchedulerServiceHost src.SchedulerServicePort
          ++ "/api/v1/scheduleevent/" ++ id), none, []⟩ 0))) := by
  refine ⟨fun _ _ _ => ⟨rfl, rfl⟩, fun hurl => ⟨?_, ?_⟩, fun hurl => ⟨?_, ?_⟩,
    fun hurl => ?_, fun hurl => ?_⟩
  · rw [AddSchedule_eq, hm]; exact doPost_out_of_url_ok net _ b hurl
  · rw [UpdateSchedule_eq, hm]; exact doPut_out_of_url_ok net _ b hurl
  · rw [AddScheduleEvent_eq, hm]; exact doPost_out_of_url_ok net _ b hurl
  · rw [UpdateScheduleEvent_eq, hm]; exact doPut_out_of_url_ok net _ b hurl
  · rw [RemoveSchedule_eq]; exact doDelete_out_of_url_ok net _ hurl
  · rw [RemoveScheduleEvent_eq]; exact doDelete_out_of_url_ok net _ hurl

/-- Witness of C2 in the sample environment: a 404 answer to a Remove gives a nil
error, a 200 answer to an Add gives a nil error, and a refused connection gives
the error of the call. -/
theorem mutation_returns_transport_error_witness :
    (demoClient.RemoveSchedule demoNet "missing").out = .ret none ∧
      (demoClient.AddSchedule demoNet demoCodec [1]).out = .ret none ∧
      ((NewSchedulerRestClient "down" 48085 "svc").UpdateScheduleEvent demoNet demoCodec
        [1]).out = .ret (some "dial tcp: connection refused") :=
  ⟨((mutation_returns_transport_error demoNet demoCodec demoClient [1] "missing" [1]
      rfl).2.2.2.1 (by decide)).trans (by decide),
    ((mutation_returns_transport_error demoNet demoCodec demoClient [1] "missing" [1]
      rfl).2.1 (by decide)).1.trans (by decide),
    ((mutation_returns_transport_error demoNet demoCodec
      (NewSchedulerRestClient "down" 48085 "svc") [1] "missing" [1]
      rfl).2.2.1 (by decide)).2.trans (by decide)⟩

/-- C4: when the entity encodes and the construction of the request fails, the
Add and Update operations do not return the construction error: `doPost` and
`doPut` panic on the nil request at the header assignment that precedes the
error check. The operations that go through `doGet` and `doDelete` return the
construction error as an error value. -/
theorem add_update_panic_on_construction_failure {T : Type} (net : Net) (c : Codec T)
    (src : SchedulerRestClient) (entity : T) (id : String) (b : Bytes) (e : GoError)
    (hm : c.marshal entity = .ok b) :
    (net.urlError (BASE src.SchedulerServiceHost src.SchedulerServicePort
          ++ "/api/v1/schedule") = some e →
      (src.AddSchedule net c entity).out = .panic nilDeref ∧
      (src.UpdateSchedule net c entity).out = .panic nilDeref) ∧
    (net.urlError (BASE src.SchedulerServiceHost src.SchedulerServicePort
          ++ "/api/v1/scheduleevent") = some e →
      (src.AddScheduleEvent net c entity).out = .panic nilDeref ∧
      (src.UpdateScheduleEvent net c entity).out = .panic nilDeref) ∧
    (net.urlError (BASE src.SchedulerServiceHost src.SchedulerServicePort
          ++ "/api/v1/schedule/" ++ id) = some e →
      (src.QuerySchedule net c id).out = .ret (c.zero, some e) ∧
      (src.RemoveSchedule net id).out = .ret (some e)) := by
  refine ⟨fun hurl => ⟨?_, ?_⟩, fun hurl => ⟨?_, ?_⟩, fun hurl => ⟨?_, ?_⟩⟩
  · rw [AddSchedule_eq, hm]; simp only [doPost_run, hurl]
  · rw [UpdateSchedule_eq, hm]; simp only [doPut_run, hurl]
  · rw [AddScheduleEvent_eq, hm]; simp only [doPost_run, hurl]
  · rw [UpdateScheduleEvent_eq, hm]; simp only [doPut_run, hurl]
  · have hg : (doGet net (BASE src.SchedulerServiceHost src.SchedulerServicePort
        ++ "/api/v1/schedule/" ++ id)).out = .ret ([], some e) := by
      simp only [doGet_run, hurl]
    rw [QuerySchedule_eq, bind_decodeStep_out _ c _ hg]
    rfl
  · rw [RemoveSchedule_eq]; simp only [doDelete_run, hurl]

/-- Witness of C4 in the sample environment: a client whose host holds a blank. -/
theorem add_update_panic_on_construction_failure_witness :
    demoNet.urlError "http://bad host:48085/api/v1/schedule"
        = some "parse: invalid character in host name" ∧
      ((NewSchedulerRestClient "bad host" 48085 "svc").AddSchedule demoNet demoCodec [1]).out
        = .panic nilDeref ∧
      ((NewSchedulerRestClient "bad host" 48085 "svc").UpdateScheduleEvent demoNet demoCodec
        [1]).out = .panic nilDeref ∧
      ((NewSchedulerRestClient "bad host" 48085 "svc").RemoveSchedule demoNet "a").out
        = .ret (some "parse: invalid character in host name") :=
  have h := add_update_panic_on_construction_failure demoNet demoCodec
    (NewSchedulerRestClient "bad host" 48085 "svc") [1] "a" [1]
    "parse: invalid character in host name" rfl
  ⟨by decide, (h.1 (by decide)).1, (h.2.1 (by decide)).2, (h.2.2 (by decide)).2⟩

theorem doGet_closesOnce (net : Net) (url : String)
    (h : delivered net (doGet net url).trace = true) :
    closesOnce true (doGet net url).trace := by
  rw [doGet_run] at h ⊢
  cases hu : net.urlError url with
  | some e => simp [hu, delivered] at h
  | none =>
    cases hr : net.roundTrip ⟨.GET, net.urlParsed url, none, []⟩ 0 with
    | error e => simp [hu, hr, delivered, Except.toBool] at h
    | ok resp => cases hb : resp.body <;> simp [hb, closesOnce, fromClose, List.dropWhile]

theorem doDelete_closesOnce (net : Net) (url : String)
    (h : delivered net (doDelete net url).trace = true) :
    closesOnce false (doDelete net url).trace := by
  rw [doDelete_run] at h ⊢
  cases hu : net.urlError url with
  | some e => simp [hu, delivered] at h
  | none =>
    cases hr : net.roundTrip ⟨.DELETE, net.urlParsed url, none, []⟩ 0 with
    | error e => simp [hu, hr, delivered, Except.toBool] at h
    | ok resp => simp [closesOnce, fromClose, List.dropWhile]

theorem doPost_closesOnce (net : Net) (url : String) (b : Bytes)
    (h : delivered net (doPost net url b).trace = true) :
    closesOnce false (doPost net url b).trace := by
  rw [doPost_run] at h ⊢
  cases hu : net.urlError url with
  | some e => simp [hu, delivered] at h
  | none =>
    cases hr : net.roundTrip
        ⟨.POST, net.urlParsed url, some b, Header.add net [] ContentType ContentTypeJsonVal⟩ 0 with
    | error e => simp [hu, hr, delivered, Except.toBool] at h
    | ok resp => simp [closesOnce, fromClose, List.dropWhile]

theorem doPut_closesOnce (net : Net) (url : String) (b : Bytes)
    (h : delivered net (doPut net url b).trace = true) :
    closesOnce false (doPut net url b).trace := by
  rw [doPut_run] at h ⊢
  cases hu : net.urlError url with
  | some e => simp [hu, delivered] at h
  | none =>
    cases hr : net.roundTrip
        ⟨.PUT, net.urlParsed url, some b, Header.add net [] ContentType ContentTypeJsonVal⟩ 0 with
    | error e => simp [hu, hr, delivered, Except.toBool] at h
    | ok resp => simp [closesOnce, fromClose, List.dropWhile]

theorem Post_closesOnce (k : PkgConsts) (net : Net) (url contentType : String)
    (contentLength : Int) (timeoutStr : String)
    (h : delivered net
      (DefaultHttpClient.Post k net url contentType contentLength timeoutStr).trace = true) :
    closesOnce true
      (DefaultHttpClient.Post k net url contentType contentLength timeoutStr).trace := by
  cases hu : net.urlError url with
  | some e =>
    rw [Post_of_url_error k net url contentType contentLength timeoutStr e hu] at h
    simp [delivered] at h
  | none =>
    rw [Post_of_url_ok k net url contentType contentLength timeoutStr hu] at h ⊢
    cases hd : net.parseDuration timeoutStr with
    | ok d =>
      rw [hd] at h
      simp only [makeRequestAndGetResponse_some] at h ⊢
      cases hr : net.roundTrip (postRequest k net url contentType contentLength) d with
      | error e => simp [hr, delivered, Except.toBool] at h
      | ok resp => cases hb : resp.body <;> simp [hb, closesOnce, fromClose, List.dropWhile]
    | error e =>
      rw [hd] at h
      simp only [makeRequestAndGetResponse_some] at h ⊢
      cases hr : net.roundTrip (postRequest k net url contentType contentLength) 0 with
      | error e => simp [hr, delivered, Except.toBool] at h
      | ok resp => cases hb : resp.body <;> simp [hb, closesOnce, fromClose, List.dropWhile]

/-- C6, as stated, fails: `RemoveSchedule` against a server that answers (here with
200) closes the body once but does not read it. -/
theorem remove_does_not_read_body :
    delivered demoNet
        (Call.trace demoConsts demoNet demoCodec demoCodec demoClient
          (.resource (.RemoveSchedule "sched-42"))) = true ∧
      ¬ readsThenCloses
        (Call.trace demoConsts demoNet demoCodec demoCodec demoClient
          (.resource (.RemoveSchedule "sched-42"))) := by
  unfold readsThenCloses
  decide

/-- C6, amended: whenever the transport hands back a response, the operation
closes the body exactly once before it returns. The three queries and the timed
post read the body once, before that close; Add, Update and Remove do not read
it. -/
theorem body_closed_once {S E : Type} (k : PkgConsts) (net : Net) (cs : Codec S)
    (ce : Codec E) (src : SchedulerRestClient) (c : Call S E)
    (h : delivered net (c.trace k net cs ce src) = true) :
    (c.trace k net cs ce src).count .bodyClose = 1 ∧
      ((c.trace k net cs ce src).count .readAll = if c.wantsBody then 1 else 0) ∧
      Event.readAll ∉ fromClose (c.trace k net cs ce src) := by
  cases c with
  | timedPost url contentType contentLength timeoutStr =>
    exact Post_closesOnce k net url contentType contentLength timeoutStr h
  | resource op =>
    cases op with
    | QuerySchedule id =>
      simp only [Call.trace, Op.trace, QuerySchedule_eq, bind_decodeStep_trace] at h ⊢
      exact doGet_closesOnce net _ h
    | QueryScheduleWithName scheduleName =>
      simp only [Call.trace, Op.trace, QueryScheduleWithName_eq, bind_decodeStep_trace] at h ⊢
      exact doGet_closesOnce net _ h
    | QueryScheduleEvent id =>
      simp only [Call.trace, Op.trace, QueryScheduleEvent_eq, bind_decodeStep_trace] at h ⊢
      exact doGet_closesOnce net _ h
    | RemoveSchedule id =>
      simp only [Call.trace, Op.trace, RemoveSchedule_eq] at h ⊢
      exact doDelete_closesOnce net _ h
    | RemoveScheduleEvent id =>
      simp only [Call.trace, Op.trace, RemoveScheduleEvent_eq] at h ⊢
      exact doDelete_closesOnce net _ h
    | AddSchedule schedule =>
      simp only [Call.trace, Op.trace, AddSchedule_eq] at h ⊢
      cases hm : cs.marshal schedule with
      | error e => simp [hm, delivered] at h
      | ok b => rw [hm] at h; exact doPost_closesOnce net _ b h
    | UpdateSchedule schedule =>
      simp only [Call.trace, Op.trace, UpdateSchedule_eq] at h ⊢
      cases hm : cs.marshal schedule with
      | error e => simp [hm, delivered] at h
      | ok b => rw [hm] at h; exact doPut_closesOnce net _ b h
    | AddScheduleEvent scheduleEvent =>
      simp only [Call.trace, Op.trace, AddScheduleEvent_eq] at h ⊢
      cases hm : ce.marshal scheduleEvent with
      | error e => simp [hm, delivered] at h
      | ok b => rw [hm] at h; exact doPost_closesOnce net _ b h
    | UpdateScheduleEvent scheduleEvent =>
      simp only [Call.trace, Op.trace, UpdateScheduleEvent_eq] at h ⊢
      cases hm : ce.marshal scheduleEvent with
      | error e => simp [hm, delivered] at h
      | ok b => rw [hm] at h; exact doPut_closesOnce net _ b h

/-- Witness of the amended C6 in the sample environment: a Remove answered with 404
and a query whose body fails while it is read. -/
theorem body_closed_once_witness :
    (Call.trace demoConsts demoNet demoCodec demoCodec demoClient
        (.resource (.RemoveScheduleEvent "missing"))).count .bodyClose = 1 ∧
      (Call.trace demoConsts demoNet demoCodec demoCodec demoClient
        (.resource (.RemoveScheduleEvent "missing"))).count .readAll = 0 ∧
      (Call.trace demoConsts demoNet demoCodec demoCodec demoClient
        (.resource (.QuerySchedule "broken"))).count .bodyClose = 1 ∧
      (Call.trace demoConsts demoNet demoCodec demoCodec demoClient
        (.resource (.QuerySchedule "broken"))).count .readAll = 1 :=
  have h1 := body_closed_once demoConsts demoNet demoCodec demoCodec demoClient
    (.resource (.RemoveScheduleEvent "missing")) (by decide)
  have h2 := body_closed_once demoConsts demoNet demoCodec demoCodec demoClient
    (.resource (.QuerySchedule "broken")) (by decide)
  ⟨h1.1, h1.2.1, h2.1, h2.2.1⟩

end Scheduler
